import Mathlib

/-!
# Verification of `promtest` (`collect.go`)

Shallow embedding of the prometheus test-assertion helpers in `collect.go`.

Modelling conventions:
* Go strings are modelled as lists of characters (`Str`).
* Protobuf pointer fields (`*string`, `*float64`, `*uint64`, the payload
  sub-messages of `dto.Metric`) are modelled as `Option`.
* `float64` metric values are modelled as exact rationals `ℚ`. This erases
  IEEE rounding: properties that depend on float64 rounding behaviour (such
  as order-sensitivity of float summation) are outside this model.
* Go `int` is 64-bit: the `int(uint64)` conversion and `int` addition used by
  `AssertSummarySampleCount` wrap explicitly modulo `2 ^ 64`.
* The `Reporter` (Go `testing.T`) is modelled as a trace: each function
  returns the list of non-fatal diagnostics (`Event`) it emitted, and the
  assertion entry points additionally return an `Outcome` recording whether
  `t.Fatal` aborted the run.
* A `prometheus.Metric` handle is modelled by `Handle`: `Write` leaves
  `written` in the target `dto.Metric` and returns `writeErr`.
* `CollectMetrics` drains its channel with one worker goroutine and joins it
  before returning, so no concurrency is observable; it is modelled as a
  sequential fold over the pushed handles in push order.
-/

set_option autoImplicit false

namespace Promtest

/-- Go strings, modelled as lists of characters. -/
abbrev Str := List Char

/-- `dto.LabelPair`: both fields are pointers (`*string`) and may be unset. -/
structure LabelPair where
  name : Option Str
  value : Option Str
  deriving DecidableEq

/-- `dto.Counter`, restricted to the `Value` field read by `collect.go`.
The Go field is a `*float64`; the value is idealized as an exact rational,
so IEEE rounding is not modelled. -/
structure Counter where
  value : ℚ
  deriving DecidableEq

/-- `dto.Gauge`, restricted to the `Value` field read by `collect.go`.
The Go field is a `*float64`; the value is idealized as an exact rational,
so IEEE rounding is not modelled. -/
structure Gauge where
  value : ℚ
  deriving DecidableEq

/-- `dto.Summary`, restricted to the `SampleCount` field (`*uint64`). -/
structure Summary where
  sampleCount : Option Nat
  deriving DecidableEq

/-- `GetSampleCount()`: zero when the pointer is nil. -/
def Summary.getSampleCount (s : Summary) : Nat := s.sampleCount.getD 0

/-- `dto.Metric`, restricted to the fields `collect.go` reads. -/
structure Metric where
  label : List LabelPair
  counter : Option Counter := none
  gauge : Option Gauge := none
  summary : Option Summary := none
  deriving DecidableEq

/-- Non-fatal diagnostics emitted through the `Reporter`, as structured
events (one constructor per call site in `collect.go`). -/
inductive Event where
  /-- `t.Errorf("Failed to collect metric: %v", err)` in `CollectMetric`. -/
  | collectError (err : Str)
  /-- `t.Error("metrics labels should have two parts, e.g. key=value")` in `matches`. -/
  | labelFormatError
  /-- `t.Logf("label %q not found in %q", expected, m.Label)` in `matches`. -/
  | labelNotFoundLog (entry : Str) (labels : List LabelPair)
  /-- the value-mismatch `t.Errorf` at the end of `AssertEquals`. -/
  | valueMismatchError (labels : List Str) (expected actual : ℚ)
  /-- the sample-count-mismatch `t.Errorf` at the end of `AssertSummarySampleCount`. -/
  | sampleCountMismatchError (labels : List Str) (expected actual : Int)
  deriving DecidableEq

/-- `Log`/`Logf` diagnostics do not mark the test failed; every `Error`/`Errorf`
event does. -/
def Event.isError : Event → Bool
  | .labelNotFoundLog _ _ => false
  | _ => true

/-- Recognises the value-mismatch failure of `AssertEquals`. -/
def Event.isValueMismatch : Event → Bool
  | .valueMismatchError _ _ _ => true
  | _ => false

/-- Recognises the sample-count-mismatch failure of `AssertSummarySampleCount`. -/
def Event.isSampleCountMismatch : Event → Bool
  | .sampleCountMismatchError _ _ _ => true
  | _ => false

/-- Whether an assertion ran to completion or was aborted by `t.Fatal(msg)`. -/
inductive Outcome where
  | completed
  | fatal (msg : String)
  deriving DecidableEq

/-- A `prometheus.Metric` handle: calling `Write` on a fresh `dto.Metric`
leaves `written` in the target and returns the error `writeErr` (or nil). -/
structure Handle where
  writeErr : Option Str := none
  written : Metric
  deriving DecidableEq

/-- `CollectMetric(t, m)`: writes the handle into a fresh `dto.Metric`,
reports a non-fatal error when `Write` fails, and returns the metric pointer.
The Go function returns `metric` (never nil) on both paths, which the
`Option` result makes explicit. -/
def CollectMetric (h : Handle) : List Event × Option Metric :=
  match h.writeErr with
  | some err => ([Event.collectError err], some h.written)
  | none => ([], some h.written)

/-- `CollectMetrics(t, metric)`: drains every handle the collector pushed, in
push order, appending each non-nil `CollectMetric` result. The goroutine and
channel only decouple push timing from conversion and are joined before the
function returns, so they are modelled as a sequential fold. -/
def CollectMetrics : List Handle → List Event × List Metric
  | [] => ([], [])
  | h :: rest =>
    let p := CollectMetric h
    let q := CollectMetrics rest
    match p.2 with
    | some m => (p.1 ++ q.1, m :: q.2)
    | none => (p.1 ++ q.1, q.2)

/-- `strings.SplitN(s, sep, 2)` for a one-character separator: `some (a, b)`
when `s = a ++ sep :: b` with `a` the part before the first separator
(two parts), `none` when the separator does not occur (one part, so the
`len(parts) != 2` check in `matches` fires). -/
def splitFirst (sep : Char) : Str → Option (Str × Str)
  | [] => none
  | c :: rest =>
    if c = sep then some ([], rest)
    else (splitFirst sep rest).map (fun p => (c :: p.1, p.2))

/-- The inner loop of `matches`: scans the sample's labels, skipping entries
whose name or value pointer is nil, for one equal to the requested pair. -/
def findLabel (ls : List LabelPair) (n v : Str) : Bool :=
  ls.any fun l =>
    match l.name, l.value with
    | some ln, some lv => ln = n && lv = v
    | _, _ => false

/-- `«matches»(t, m, expectedLabels)`: for each filter entry in order, split at
the first `=` (error and fail on a malformed entry), then require some label
with exactly that name and value (log and fail when none is found). -/
def «matches» (m : Metric) : List Str → List Event × Bool
  | [] => ([], true)
  | e :: rest =>
    match splitFirst '=' e with
    | none => ([Event.labelFormatError], false)
    | some (n, v) =>
      if findLabel m.label n v then «matches» m rest
      else ([Event.labelNotFoundLog e m.label], false)

/-- The filtering loop shared by `AssertEquals` and
`AssertSummarySampleCount`: keeps the metrics accepted by `matches`,
accumulating the diagnostics `matches` emits along the way. -/
def filterMetrics (labels : List Str) : List Metric → List Event × List Metric
  | [] => ([], [])
  | m :: rest =>
    let p := «matches» m labels
    let q := filterMetrics labels rest
    (p.1 ++ q.1, if p.2 then m :: q.2 else q.2)

/-- The aggregation loop of `AssertEquals`: add the counter value when the
counter payload is present, otherwise the gauge value, otherwise `t.Fatal`
aborts with "neither a counter nor a gauge". The Go loop accumulates a
`float64`; exact `ℚ` addition stands in for it here, so IEEE rounding of the
running sum is not modelled. -/
def sumCounterGauge : ℚ → List Metric → Except String ℚ
  | acc, [] => Except.ok acc
  | acc, m :: rest =>
    match m.counter with
    | some c => sumCounterGauge (acc + c.value) rest
    | none =>
      match m.gauge with
      | some g => sumCounterGauge (acc + g.value) rest
      | none => Except.error "neither a counter nor a gauge"

/-- `AssertEquals(t, expected, metric, labels...)`. -/
def AssertEquals (expected : ℚ) (hs : List Handle) (labels : List Str) :
    List Event × Outcome :=
  let c := CollectMetrics hs
  let f := filterMetrics labels c.2
  match sumCounterGauge 0 f.2 with
  | Except.error msg => (c.1 ++ f.1, Outcome.fatal msg)
  | Except.ok actual =>
    if expected ≠ actual then
      (c.1 ++ f.1 ++ [Event.valueMismatchError labels expected actual],
        Outcome.completed)
    else (c.1 ++ f.1, Outcome.completed)

/-- Go conversion `int(u)` for `u : uint64`: reinterpret the low 64 bits as a
two's-complement signed integer. -/
def int64OfUInt64 (n : Nat) : Int :=
  if n % 2 ^ 64 < 2 ^ 63 then ((n % 2 ^ 64 : Nat) : Int)
  else ((n % 2 ^ 64 : Nat) : Int) - 2 ^ 64

/-- Go 64-bit signed `+` (wraps by two's complement). -/
def int64Add (a b : Int) : Int :=
  (a + b + 2 ^ 63) % 2 ^ 64 - 2 ^ 63

/-- The aggregation loop of `AssertSummarySampleCount`: `t.Fatal` aborts with
"metric is not a summary" when the summary payload is missing, otherwise adds
`int(m.Summary.GetSampleCount())`. -/
def sumSampleCounts : Int → List Metric → Except String Int
  | acc, [] => Except.ok acc
  | acc, m :: rest =>
    match m.summary with
    | none => Except.error "metric is not a summary"
    | some s => sumSampleCounts (int64Add acc (int64OfUInt64 s.getSampleCount)) rest

/-- `AssertSummarySampleCount(t, expected, metric, labels...)`. -/
def AssertSummarySampleCount (expected : Int) (hs : List Handle)
    (labels : List Str) : List Event × Outcome :=
  let c := CollectMetrics hs
  let f := filterMetrics labels c.2
  match sumSampleCounts 0 f.2 with
  | Except.error msg => (c.1 ++ f.1, Outcome.fatal msg)
  | Except.ok actual =>
    if expected ≠ actual then
      (c.1 ++ f.1 ++ [Event.sampleCountMismatchError labels expected actual],
        Outcome.completed)
    else (c.1 ++ f.1, Outcome.completed)

/-- The search loop of `GetMetric`: returns the first metric accepted by
`matches`, accumulating diagnostics of the scanned metrics. -/
def findFirstMatch (labels : List Str) : List Metric → List Event × Option Metric
  | [] => ([], none)
  | m :: rest =>
    let p := «matches» m labels
    if p.2 then (p.1, some m)
    else
      let q := findFirstMatch labels rest
      (p.1 ++ q.1, q.2)

/-- `GetMetric(t, metric, expectedLabels...)`. -/
def GetMetric (hs : List Handle) (labels : List Str) :
    List Event × Option Metric :=
  let c := CollectMetrics hs
  let f := findFirstMatch labels c.2
  (c.1 ++ f.1, f.2)

/-- Spec-side payload of one sample in `AssertEquals`: the counter value if
present, else the gauge value (zero only matters for samples excluded by the
counter-or-gauge hypotheses below). -/
def cgValue (m : Metric) : ℚ :=
  match m.counter with
  | some c => c.value
  | none =>
    match m.gauge with
    | some g => g.value
    | none => 0

/-- Spec-side payload of one sample in `AssertSummarySampleCount`. -/
def scValue (m : Metric) : Int :=
  match m.summary with
  | some s => int64OfUInt64 s.getSampleCount
  | none => 0

/-- Spec-side accumulated value of `AssertEquals`, left-to-right. -/
def specSum (l : List Metric) : ℚ := l.foldl (fun a m => a + cgValue m) 0

/-- Spec-side accumulated sample count of `AssertSummarySampleCount`,
left-to-right with Go `int` wrap-around. -/
def specSumSC (l : List Metric) : Int := l.foldl (fun a m => int64Add a (scValue m)) 0

/-! ## Concrete fixtures (used to instantiate the theorems below) -/

/-- Filter entry `method=GET`. -/
def strGET : Str := "method=GET".toList

/-- Filter entry `code=200`. -/
def strC200 : Str := "code=200".toList

/-- Malformed filter entry without `=`. -/
def strBad : Str := "badfilter".toList

/-- Filter entry `op=write`. -/
def strOpWrite : Str := "op=write".toList

/-- Label `method="GET"`. -/
def labelGET : LabelPair := { name := some "method".toList, value := some "GET".toList }

/-- Label `op="write"`. -/
def labelOpWrite : LabelPair := { name := some "op".toList, value := some "write".toList }

/-- A counter sample of value 3 labelled `method="GET"`. -/
def mGET3 : Metric := { label := [labelGET], counter := some { value := 3 } }

/-- A sample with no payload at all (neither counter, gauge nor summary). -/
def mUntyped : Metric := { label := [labelGET] }

/-- A summary sample with sample count 7 labelled `op="write"`. -/
def mSummary7 : Metric := { label := [labelOpWrite], summary := some { sampleCount := some 7 } }

/-- A handle whose `Write` succeeds with `mGET3`. -/
def hGET3 : Handle := { written := mGET3 }

/-- A handle whose `Write` succeeds with `mUntyped`. -/
def hUntyped : Handle := { written := mUntyped }

/-- A handle whose `Write` succeeds with `mSummary7`. -/
def hSummary7 : Handle := { written := mSummary7 }

/-- A handle whose `Write` fails. -/
def hFailing : Handle := { writeErr := some "write failed".toList, written := { label := [] } }

/-! ## Helper lemmas -/

lemma splitFirst_eq_some_iff {sep : Char} {s a b : Str} :
    splitFirst sep s = some (a, b) ↔ s = a ++ sep :: b ∧ sep ∉ a := by
  induction s generalizing a with
  | nil =>
    simp only [splitFirst]
    constructor
    · intro h; cases h
    · rintro ⟨h, -⟩; cases a <;> simp at h
  | cons c rest ih =>
    by_cases hc : c = sep
    · subst hc
      simp only [splitFirst, ite_true, Option.some.injEq, Prod.mk.injEq]
      constructor
      · rintro ⟨rfl, rfl⟩; simp
      · rintro ⟨heq, hmem⟩
        cases a with
        | nil =>
          have : rest = b := by simpa using heq
          exact ⟨rfl, this⟩
        | cons a0 a1 =>
          exfalso
          have : c = a0 := by simpa using congrArg (fun l => l.headI) heq
          exact hmem (this ▸ List.mem_cons_self a0 a1)
    · simp only [splitFirst, if_neg hc, Option.map_eq_some']
      constructor
      · rintro ⟨⟨p1, p2⟩, hp, hfp⟩
        obtain ⟨rfl, rfl⟩ : c :: p1 = a ∧ p2 = b := by
          simpa [Prod.ext_iff] using hfp
        obtain ⟨rfl, hmem⟩ := ih.mp hp
        refine ⟨rfl, ?_⟩
        simp only [List.mem_cons, not_or]
        exact ⟨fun h => hc h.symm, hmem⟩
      · rintro ⟨heq, hmem⟩
        cases a with
        | nil =>
          exfalso
          exact hc (by simpa using congrArg (fun l => l.headI) heq)
        | cons a0 a1 =>
          have hca : c = a0 := by simpa using congrArg (fun l => l.headI) heq
          subst hca
          have hrest : rest = a1 ++ sep :: b := by simpa using heq
          have hm1 : sep ∉ a1 := fun h => hmem (List.mem_cons_of_mem _ h)
          exact ⟨(a1, b), ih.mpr ⟨hrest, hm1⟩, rfl⟩

lemma splitFirst_eq_none_iff {sep : Char} {s : Str} :
    splitFirst sep s = none ↔ sep ∉ s := by
  induction s with
  | nil => simp [splitFirst]
  | cons c rest ih =>
    by_cases hc : c = sep
    · subst hc; simp [splitFirst]
    · simp only [splitFirst, if_neg hc, Option.map_eq_none', ih, List.mem_cons, not_or]
      constructor
      · intro h; exact ⟨fun hsc => hc hsc.symm, h⟩
      · rintro ⟨-, h⟩; exact h

lemma splitFirst_decomp_unique {n v n' v' : Str}
    (h : n ++ '=' :: v = n' ++ '=' :: v')
    (hn : ('=' : Char) ∉ n) (hn' : ('=' : Char) ∉ n') : n = n' ∧ v = v' := by
  have h1 : splitFirst '=' (n ++ '=' :: v) = some (n, v) :=
    splitFirst_eq_some_iff.mpr ⟨rfl, hn⟩
  have h2 : splitFirst '=' (n ++ '=' :: v) = some (n', v') := by
    rw [h]; exact splitFirst_eq_some_iff.mpr ⟨rfl, hn'⟩
  have := h1.symm.trans h2
  simpa [Prod.ext_iff] using this

lemma findLabel_eq_true_iff {ls : List LabelPair} {n v : Str} :
    findLabel ls n v = true ↔ ∃ l ∈ ls, l.name = some n ∧ l.value = some v := by
  simp only [findLabel, List.any_eq_true]
  refine exists_congr fun l => and_congr_right fun _ => ?_
  cases hn : l.name with
  | none => simp
  | some ln =>
    cases hv : l.value with
    | none => simp
    | some lv => simp [Bool.and_eq_true, decide_eq_true_iff]

lemma CollectMetrics_metrics : ∀ hs : List Handle,
    (CollectMetrics hs).2 = hs.map Handle.written
  | [] => rfl
  | h :: rest => by
    cases hw : h.writeErr <;>
      simp [CollectMetrics, CollectMetric, hw, CollectMetrics_metrics rest]

lemma mem_CollectMetrics_events {ev : Event} :
    ∀ {hs : List Handle}, ev ∈ (CollectMetrics hs).1 → ∃ s, ev = Event.collectError s := by
  intro hs
  induction hs with
  | nil => intro h; simp [CollectMetrics] at h
  | cons hd rest ih =>
    intro h
    cases hw : hd.writeErr with
    | none =>
      rw [show CollectMetrics (hd :: rest)
          = ((CollectMetric hd).1 ++ (CollectMetrics rest).1,
             hd.written :: (CollectMetrics rest).2) from by
        simp [CollectMetrics, CollectMetric, hw]] at h
      simp only [CollectMetric, hw, List.nil_append] at h
      exact ih h
    | some err =>
      rw [show CollectMetrics (hd :: rest)
          = ((CollectMetric hd).1 ++ (CollectMetrics rest).1,
             hd.written :: (CollectMetrics rest).2) from by
        simp [CollectMetrics, CollectMetric, hw]] at h
      simp only [CollectMetric, hw, List.cons_append, List.nil_append,
        List.mem_cons] at h
      rcases h with rfl | h
      · exact ⟨err, rfl⟩
      · exact ih h

lemma CollectMetrics_events_nil : ∀ {hs : List Handle},
    (∀ x ∈ hs, x.writeErr = none) → (CollectMetrics hs).1 = [] := by
  intro hs
  induction hs with
  | nil => intro _; rfl
  | cons hd rest ih =>
    intro h
    have hw := h hd (List.mem_cons_self _ _)
    have hr := ih fun x hx => h x (List.mem_cons_of_mem _ hx)
    simp [CollectMetrics, CollectMetric, hw, hr]

lemma mem_matches_events {ev : Event} {m : Metric} :
    ∀ {F : List Str}, ev ∈ («matches» m F).1 →
      ev = Event.labelFormatError ∨ ∃ en ls, ev = Event.labelNotFoundLog en ls := by
  intro F
  induction F with
  | nil => intro h; simp [«matches»] at h
  | cons e rest ih =>
    intro h
    cases hsp : splitFirst '=' e with
    | none =>
      simp only [«matches», hsp] at h
      simp at h
      exact Or.inl h
    | some p =>
      obtain ⟨n, v⟩ := p
      simp only [«matches», hsp] at h
      by_cases hf : findLabel m.label n v
      · rw [if_pos hf] at h
        exact ih h
      · rw [if_neg hf] at h
        simp at h
        exact Or.inr ⟨e, m.label, h⟩

lemma matches_events_wf {m : Metric} :
    ∀ {F : List Str}, (∀ e ∈ F, ('=' : Char) ∈ e) →
      ∀ ev ∈ («matches» m F).1, ev.isError = false := by
  intro F
  induction F with
  | nil => intro _ ev h; simp [«matches»] at h
  | cons e rest ih =>
    intro hF ev h
    have he : ('=' : Char) ∈ e := hF e (List.mem_cons_self _ _)
    obtain ⟨⟨n, v⟩, hsp⟩ : ∃ p, splitFirst '=' e = some p := by
      cases hs0 : splitFirst '=' e with
      | none => exact absurd (splitFirst_eq_none_iff.mp hs0) (by simpa using he)
      | some p => exact ⟨p, rfl⟩
    simp only [«matches», hsp] at h
    by_cases hf : findLabel m.label n v
    · rw [if_pos hf] at h
      exact ih (fun x hx => hF x (List.mem_cons_of_mem _ hx)) ev h
    · rw [if_neg hf] at h
      simp only [List.mem_singleton] at h
      subst h
      rfl

lemma filterMetrics_metrics (labels : List Str) :
    ∀ ms : List Metric,
      (filterMetrics labels ms).2 = ms.filter (fun m => («matches» m labels).2)
  | [] => rfl
  | m :: rest => by
    simp only [filterMetrics, List.filter_cons, filterMetrics_metrics labels rest]

lemma mem_filterMetrics_events {ev : Event} {labels : List Str} :
    ∀ {ms : List Metric}, ev ∈ (filterMetrics labels ms).1 →
      ∃ m : Metric, ev ∈ («matches» m labels).1 := by
  intro ms
  induction ms with
  | nil => intro h; simp [filterMetrics] at h
  | cons m rest ih =>
    intro h
    simp only [filterMetrics, List.mem_append] at h
    rcases h with h | h
    · exact ⟨m, h⟩
    · exact ih h

lemma findFirstMatch_metric (labels : List Str) :
    ∀ ms : List Metric,
      (findFirstMatch labels ms).2 = ms.find? (fun m => («matches» m labels).2)
  | [] => rfl
  | m :: rest => by
    simp only [findFirstMatch, List.find?_cons]
    by_cases hb : («matches» m labels).2 <;>
      simp [hb, findFirstMatch_metric labels rest]

lemma mem_findFirstMatch_events {ev : Event} {labels : List Str} :
    ∀ {ms : List Metric}, ev ∈ (findFirstMatch labels ms).1 →
      ∃ m : Metric, ev ∈ («matches» m labels).1 := by
  intro ms
  induction ms with
  | nil => intro h; simp [findFirstMatch] at h
  | cons m rest ih =>
    intro h
    simp only [findFirstMatch] at h
    by_cases hb : («matches» m labels).2
    · rw [if_pos hb] at h
      exact ⟨m, h⟩
    · rw [if_neg hb] at h
      simp only [List.mem_append] at h
      rcases h with h | h
      · exact ⟨m, h⟩
      · exact ih h

lemma sumCounterGauge_eq_ok :
    ∀ {l : List Metric}, (∀ m ∈ l, m.counter.isSome ∨ m.gauge.isSome) →
      ∀ acc : ℚ, sumCounterGauge acc l
        = Except.ok (l.foldl (fun a m => a + cgValue m) acc) := by
  intro l
  induction l with
  | nil => intro _ acc; rfl
  | cons m rest ih =>
    intro h acc
    have hm := h m (List.mem_cons_self _ _)
    have hr := fun x hx => h x (List.mem_cons_of_mem m hx)
    cases hc : m.counter with
    | some c => simp [sumCounterGauge, hc, cgValue, ih hr]
    | none =>
      cases hg : m.gauge with
      | some g => simp [sumCounterGauge, hc, hg, cgValue, ih hr]
      | none => simp [hc, hg] at hm

lemma sumCounterGauge_eq_error {m : Metric}
    (h2 : m.counter = none) (h3 : m.gauge = none) :
    ∀ {F₁ : List Metric}, (∀ x ∈ F₁, x.counter.isSome ∨ x.gauge.isSome) →
      ∀ (F₂ : List Metric) (acc : ℚ),
        sumCounterGauge acc (F₁ ++ m :: F₂)
          = Except.error "neither a counter nor a gauge" := by
  intro F₁
  induction F₁ with
  | nil => intro _ F₂ acc; simp [sumCounterGauge, h2, h3]
  | cons x rest ih =>
    intro h1 F₂ acc
    have hx := h1 x (List.mem_cons_self _ _)
    have hr := fun y hy => h1 y (List.mem_cons_of_mem x hy)
    cases hc : x.counter with
    | some c => simp [sumCounterGauge, hc, ih hr]
    | none =>
      cases hg : x.gauge with
      | some g => simp [sumCounterGauge, hc, hg, ih hr]
      | none => simp [hc, hg] at hx

lemma sumSampleCounts_eq_ok :
    ∀ {l : List Metric}, (∀ m ∈ l, m.summary.isSome) →
      ∀ acc : Int, sumSampleCounts acc l
        = Except.ok (l.foldl (fun a m => int64Add a (scValue m)) acc) := by
  intro l
  induction l with
  | nil => intro _ acc; rfl
  | cons m rest ih =>
    intro h acc
    have hm := h m (List.mem_cons_self _ _)
    have hr := fun x hx => h x (List.mem_cons_of_mem m hx)
    cases hs : m.summary with
    | some s => simp [sumSampleCounts, hs, scValue, ih hr]
    | none => simp [hs] at hm

lemma sumSampleCounts_eq_error :
    ∀ {l : List Metric}, (∃ m ∈ l, m.summary = none) →
      ∀ acc : Int, sumSampleCounts acc l = Except.error "metric is not a summary" := by
  intro l
  induction l with
  | nil => rintro ⟨m, hm, -⟩; simp at hm
  | cons m rest ih =>
    rintro ⟨x, hx, hxs⟩ acc
    rcases List.mem_cons.mp hx with rfl | hx
    · simp [sumSampleCounts, hxs]
    · cases hs : m.summary with
      | none => simp [sumSampleCounts, hs]
      | some s => simp [sumSampleCounts, hs, ih ⟨x, hx, hxs⟩]

lemma pipeline_events_shape {ev : Event} {hs : List Handle} {labels : List Str}
    (hmem : ev ∈ (CollectMetrics hs).1 ++ (filterMetrics labels (CollectMetrics hs).2).1) :
    (∃ s, ev = Event.collectError s) ∨ ev = Event.labelFormatError ∨
      ∃ en ls, ev = Event.labelNotFoundLog en ls := by
  rcases List.mem_append.mp hmem with h | h
  · exact Or.inl (mem_CollectMetrics_events h)
  · obtain ⟨m, hm⟩ := mem_filterMetrics_events h
    exact Or.inr (mem_matches_events hm)

lemma valueMismatch_not_in_pipeline {hs : List Handle} {labels : List Str}
    {L : List Str} {x y : ℚ} :
    Event.valueMismatchError L x y
      ∉ (CollectMetrics hs).1 ++ (filterMetrics labels (CollectMetrics hs).2).1 := by
  intro hmem
  rcases pipeline_events_shape hmem with ⟨s, h⟩ | h | ⟨en, ls, h⟩ <;> cases h

lemma sampleCountMismatch_not_in_pipeline {hs : List Handle} {labels : List Str}
    {L : List Str} {x y : Int} :
    Event.sampleCountMismatchError L x y
      ∉ (CollectMetrics hs).1 ++ (filterMetrics labels (CollectMetrics hs).2).1 := by
  intro hmem
  rcases pipeline_events_shape hmem with ⟨s, h⟩ | h | ⟨en, ls, h⟩ <;> cases h

/-! ## Claim theorems -/

/-- C8: the samples returned by `CollectMetrics` are exactly the metrics the
pushed handles write, in push (insertion) order: every pushed handle is
drained and converted before the function returns. -/
theorem CollectMetrics_insertion_order (hs : List Handle) :
    (CollectMetrics hs).2 = hs.map Handle.written :=
  CollectMetrics_metrics hs

/-- C1 (evaluating the code at the failing input): a handle whose `Write`
fails is reported through the `Reporter` as a non-fatal error, but it still
contributes a sample — `CollectMetric` returns the metric (never nil) even on
failure, so the nil check in `CollectMetrics` never fires and the result
length equals the number of pushed handles, not that number minus the decode
failures. -/
theorem CollectMetrics_keeps_failed_decode :
    (CollectMetrics [hFailing]).1 = [Event.collectError "write failed".toList] ∧
    (CollectMetrics [hFailing]).2.length = 1 :=
  ⟨rfl, rfl⟩

/-- C2: for a filter whose entries all contain `=`, `matches` accepts a sample
iff for every entry, split at the first `=` into a name and a value, some
label of the sample has both fields present and exactly equal to them; the
empty filter accepts every sample. -/
theorem matches_spec (m : Metric) (F : List Str)
    (hF : ∀ e ∈ F, ('=' : Char) ∈ e) :
    («matches» m []).2 = true ∧
    ((«matches» m F).2 = true ↔
      ∀ n v : Str, n ++ '=' :: v ∈ F → ('=' : Char) ∉ n →
        ∃ l ∈ m.label, l.name = some n ∧ l.value = some v) := by
  refine ⟨rfl, ?_⟩
  induction F with
  | nil => simp [«matches»]
  | cons e rest ih =>
    have he : ('=' : Char) ∈ e := hF e (List.mem_cons_self _ _)
    obtain ⟨⟨n₀, v₀⟩, hsp⟩ : ∃ p, splitFirst '=' e = some p := by
      cases hs0 : splitFirst '=' e with
      | none => exact absurd (splitFirst_eq_none_iff.mp hs0) (by simpa using he)
      | some p => exact ⟨p, rfl⟩
    obtain ⟨he', hn₀⟩ := splitFirst_eq_some_iff.mp hsp
    subst he'
    simp only [«matches», hsp]
    by_cases hf : findLabel m.label n₀ v₀
    · rw [if_pos hf]
      rw [ih (fun x hx => hF x (List.mem_cons_of_mem _ hx))]
      constructor
      · intro hrest n v hnv hn
        rcases List.mem_cons.mp hnv with heq | hmem
        · obtain ⟨rfl, rfl⟩ := splitFirst_decomp_unique heq hn hn₀
          exact findLabel_eq_true_iff.mp hf
        · exact hrest n v hmem hn
      · intro hall n v hmem hn
        exact hall n v (List.mem_cons_of_mem _ hmem) hn
    · rw [if_neg hf]
      refine iff_of_false (by simp) ?_
      intro hall
      exact hf (findLabel_eq_true_iff.mpr
        (hall n₀ v₀ (List.mem_cons_self _ _) hn₀))

/-- Witness for C2 at a concrete sample and filter. -/
theorem matches_spec_witness :
    («matches» mGET3 []).2 = true ∧
    ((«matches» mGET3 [strGET]).2 = true ↔
      ∀ n v : Str, n ++ '=' :: v ∈ [strGET] → ('=' : Char) ∉ n →
        ∃ l ∈ mGET3.label, l.name = some n ∧ l.value = some v) :=
  matches_spec mGET3 [strGET] (by decide)

/-- C3: when every filter-matched sample carries a counter or a gauge payload,
`AssertEquals` completes (no fatal report), its accumulated value is the
left-to-right sum of the counter-else-gauge values of the matched samples,
and it reports the non-fatal value-mismatch error iff that sum is not exactly
equal to `expected`. -/
theorem AssertEquals_spec (expected : ℚ) (hs : List Handle) (labels : List Str)
    (h : ∀ m ∈ (filterMetrics labels (CollectMetrics hs).2).2,
      m.counter.isSome ∨ m.gauge.isSome) :
    (AssertEquals expected hs labels).2 = Outcome.completed ∧
    sumCounterGauge 0 (filterMetrics labels (CollectMetrics hs).2).2
      = Except.ok (specSum (filterMetrics labels (CollectMetrics hs).2).2) ∧
    (Event.valueMismatchError labels expected
        (specSum (filterMetrics labels (CollectMetrics hs).2).2)
      ∈ (AssertEquals expected hs labels).1 ↔
      specSum (filterMetrics labels (CollectMetrics hs).2).2 ≠ expected) := by
  have hok : sumCounterGauge 0 (filterMetrics labels (CollectMetrics hs).2).2
      = Except.ok (specSum (filterMetrics labels (CollectMetrics hs).2).2) :=
    sumCounterGauge_eq_ok h 0
  refine ⟨?_, hok, ?_⟩ <;> simp only [AssertEquals, hok]
  · by_cases hne : expected = specSum (filterMetrics labels (CollectMetrics hs).2).2
    · rw [if_neg (fun hk => hk hne)]
    · rw [if_pos hne]
  · by_cases hne : expected = specSum (filterMetrics labels (CollectMetrics hs).2).2
    · rw [if_neg (fun hk => hk hne)]
      refine iff_of_false valueMismatch_not_in_pipeline (fun hk => hk hne.symm)
    · rw [if_pos hne]
      refine iff_of_true ?_ (fun hk => hne hk.symm)
      simp

/-- Witness for C3 at a concrete matching counter sample. -/
theorem AssertEquals_spec_witness :
    (AssertEquals 3 [hGET3] [strGET]).2 = Outcome.completed ∧
    sumCounterGauge 0 (filterMetrics [strGET] (CollectMetrics [hGET3]).2).2
      = Except.ok (specSum (filterMetrics [strGET] (CollectMetrics [hGET3]).2).2) ∧
    (Event.valueMismatchError [strGET] 3
        (specSum (filterMetrics [strGET] (CollectMetrics [hGET3]).2).2)
      ∈ (AssertEquals 3 [hGET3] [strGET]).1 ↔
      specSum (filterMetrics [strGET] (CollectMetrics [hGET3]).2).2 ≠ 3) :=
  AssertEquals_spec 3 [hGET3] [strGET] (by decide)

/-- C4: when the first filter-matched sample carrying neither a counter nor a
gauge payload is reached (all earlier matched samples carry one), the
assertion is aborted fatally with "neither a counter nor a gauge", no
value-mismatch error is reported, and the samples after the offending one are
not processed (the result does not depend on `F₂`). -/
theorem AssertEquals_fatal_first (expected : ℚ) (hs : List Handle)
    (labels : List Str) (F₁ : List Metric) (m : Metric) (F₂ : List Metric)
    (hsplit : (filterMetrics labels (CollectMetrics hs).2).2 = F₁ ++ m :: F₂)
    (h1 : ∀ x ∈ F₁, x.counter.isSome ∨ x.gauge.isSome)
    (h2 : m.counter = none) (h3 : m.gauge = none) :
    (AssertEquals expected hs labels).2
      = Outcome.fatal "neither a counter nor a gauge" ∧
    (AssertEquals expected hs labels).1
      = (CollectMetrics hs).1 ++ (filterMetrics labels (CollectMetrics hs).2).1 ∧
    ∀ (L : List Str) (x y : ℚ),
      Event.valueMismatchError L x y ∉ (AssertEquals expected hs labels).1 := by
  have herr : sumCounterGauge 0 (filterMetrics labels (CollectMetrics hs).2).2
      = Except.error "neither a counter nor a gauge" := by
    rw [hsplit]
    exact sumCounterGauge_eq_error h2 h3 h1 F₂ 0
  refine ⟨?_, ?_, ?_⟩ <;> simp only [AssertEquals, herr]
  intro L x y
  exact valueMismatch_not_in_pipeline

/-- Witness for C4 at a concrete sample with no payload. -/
theorem AssertEquals_fatal_first_witness :
    (AssertEquals 0 [hUntyped] []).2
      = Outcome.fatal "neither a counter nor a gauge" ∧
    (AssertEquals 0 [hUntyped] []).1
      = (CollectMetrics [hUntyped]).1
        ++ (filterMetrics [] (CollectMetrics [hUntyped]).2).1 ∧
    ∀ (L : List Str) (x y : ℚ),
      Event.valueMismatchError L x y ∉ (AssertEquals 0 [hUntyped] []).1 :=
  AssertEquals_fatal_first 0 [hUntyped] [] [] mUntyped []
    (by decide) (by decide) rfl rfl

/-- C5: `AssertSummarySampleCount` runs the same collect-and-filter pipeline
as `AssertEquals` (the same `CollectMetrics` and `filterMetrics`). When every
matched sample carries a summary payload it completes, summing the sample
counts converted to Go `int`, and reports the non-fatal mismatch error iff
the sum is not exactly `expected`; when some matched sample carries no
summary it aborts fatally with "metric is not a summary" and reports no
mismatch error. -/
theorem AssertSummarySampleCount_spec (expected : Int) (hs : List Handle)
    (labels : List Str) :
    ((∀ m ∈ (filterMetrics labels (CollectMetrics hs).2).2, m.summary.isSome) →
      (AssertSummarySampleCount expected hs labels).2 = Outcome.completed ∧
      (Event.sampleCountMismatchError labels expected
          (specSumSC (filterMetrics labels (CollectMetrics hs).2).2)
        ∈ (AssertSummarySampleCount expected hs labels).1 ↔
        specSumSC (filterMetrics labels (CollectMetrics hs).2).2 ≠ expected)) ∧
    ((∃ m ∈ (filterMetrics labels (CollectMetrics hs).2).2, m.summary = none) →
      (AssertSummarySampleCount expected hs labels).2
        = Outcome.fatal "metric is not a summary" ∧
      ∀ (L : List Str) (x y : Int),
        Event.sampleCountMismatchError L x y
          ∉ (AssertSummarySampleCount expected hs labels).1) := by
  constructor
  · intro h
    have hok : sumSampleCounts 0 (filterMetrics labels (CollectMetrics hs).2).2
        = Except.ok (specSumSC (filterMetrics labels (CollectMetrics hs).2).2) :=
      sumSampleCounts_eq_ok h 0
    refine ⟨?_, ?_⟩ <;> simp only [AssertSummarySampleCount, hok]
    · by_cases hne : expected
          = specSumSC (filterMetrics labels (CollectMetrics hs).2).2
      · rw [if_neg (fun hk => hk hne)]
      · rw [if_pos hne]
    · by_cases hne : expected
          = specSumSC (filterMetrics labels (CollectMetrics hs).2).2
      · rw [if_neg (fun hk => hk hne)]
        refine iff_of_false sampleCountMismatch_not_in_pipeline
          (fun hk => hk hne.symm)
      · rw [if_pos hne]
        refine iff_of_true ?_ (fun hk => hne hk.symm)
        simp
  · intro hex
    have herr : sumSampleCounts 0 (filterMetrics labels (CollectMetrics hs).2).2
        = Except.error "metric is not a summary" :=
      sumSampleCounts_eq_error hex 0
    refine ⟨?_, ?_⟩ <;> simp only [AssertSummarySampleCount, herr]
    intro L x y
    exact sampleCountMismatch_not_in_pipeline

/-- Witness for C5 at a concrete matching summary sample. -/
theorem AssertSummarySampleCount_spec_witness :
    (AssertSummarySampleCount 7 [hSummary7] [strOpWrite]).2 = Outcome.completed ∧
    (Event.sampleCountMismatchError [strOpWrite] 7
        (specSumSC (filterMetrics [strOpWrite] (CollectMetrics [hSummary7]).2).2)
      ∈ (AssertSummarySampleCount 7 [hSummary7] [strOpWrite]).1 ↔
      specSumSC (filterMetrics [strOpWrite] (CollectMetrics [hSummary7]).2).2 ≠ 7) :=
  (AssertSummarySampleCount_spec 7 [hSummary7] [strOpWrite]).1 (by decide)

/-- C6: `GetMetric` returns the first collected sample (in `CollectMetrics`
order) accepted by `matches`, and `none` when no sample is accepted; when the
filter entries are well formed and every handle decodes, the run reports no
error at all — in particular an absent result is not reported as an error. -/
theorem GetMetric_spec (hs : List Handle) (labels : List Str) :
    (GetMetric hs labels).2
      = (CollectMetrics hs).2.find? (fun m => («matches» m labels).2) ∧
    ((∀ e ∈ labels, ('=' : Char) ∈ e) → (∀ x ∈ hs, x.writeErr = none) →
      ∀ ev ∈ (GetMetric hs labels).1, ev.isError = false) := by
  constructor
  · simp only [GetMetric]
    exact findFirstMatch_metric labels (CollectMetrics hs).2
  · intro hF hdec ev hev
    simp only [GetMetric, List.mem_append] at hev
    rcases hev with hev | hev
    · rw [CollectMetrics_events_nil hdec] at hev
      simp at hev
    · obtain ⟨m, hm⟩ := mem_findFirstMatch_events hev
      exact matches_events_wf hF ev hm

/-- Witness for C6: no sample is labelled `code=200`, so the result is absent
and nothing is reported as an error. -/
theorem GetMetric_spec_witness :
    (GetMetric [hGET3] [strC200]).2 = none ∧
    ∀ ev ∈ (GetMetric [hGET3] [strC200]).1, ev.isError = false :=
  ⟨(GetMetric_spec [hGET3] [strC200]).1.trans (by decide),
   (GetMetric_spec [hGET3] [strC200]).2 (by decide) (by decide)⟩

/-- C7: when `matches` reaches a filter entry without `=` (every earlier entry
was well formed and matched the sample), it reports the non-fatal format
error, returns false, and does not evaluate the remaining entries — the
result is the same for every tail `F₂`; moreover any filter containing such
an entry makes the whole match false, regardless of the sample's labels. -/
theorem matches_malformed_entry (m : Metric) (F₁ : List Str) (e : Str)
    (F₂ : List Str) (he : ('=' : Char) ∉ e)
    (hpre : ∀ f ∈ F₁,
      (splitFirst '=' f).map (fun p => findLabel m.label p.1 p.2) = some true) :
    «matches» m (F₁ ++ e :: F₂) = ([Event.labelFormatError], false) ∧
    ∀ G : List Str, e ∈ G → («matches» m G).2 = false := by
  have hnone : splitFirst '=' e = none := splitFirst_eq_none_iff.mpr he
  constructor
  · induction F₁ with
    | nil => simp [«matches», hnone]
    | cons f rest ih =>
      obtain ⟨⟨n, v⟩, hsp, hfp⟩ :=
        Option.map_eq_some'.mp (hpre f (List.mem_cons_self _ _))
      simp only [List.cons_append, «matches», hsp, if_pos hfp]
      exact ih fun x hx => hpre x (List.mem_cons_of_mem _ hx)
  · intro G hG
    induction G with
    | nil => simp at hG
    | cons g rest ih =>
      rcases List.mem_cons.mp hG with rfl | hG'
      · simp [«matches», hnone]
      · cases hsp : splitFirst '=' g with
        | none => simp [«matches», hsp]
        | some p =>
          obtain ⟨n, v⟩ := p
          simp only [«matches», hsp]
          by_cases hf : findLabel m.label n v
          · rw [if_pos hf]
            exact ih hG'
          · rw [if_neg hf]

/-- Witness for C7: the malformed entry `badfilter` after a matching entry
reports the format error and fails the match; any filter containing
`badfilter` fails. -/
theorem matches_malformed_entry_witness :
    «matches» mGET3 ([strGET] ++ strBad :: [strC200])
      = ([Event.labelFormatError], false) ∧
    («matches» mGET3 [strBad]).2 = false := by
  have h := matches_malformed_entry mGET3 [strGET] strBad [strC200]
    (by decide) (by decide)
  exact ⟨h.1, h.2 [strBad] (by decide)⟩

/-- C10: when no collected sample matches the filter, the accumulated value of
`AssertEquals` is 0: the run completes (no fatal report), the value-mismatch
error (with actual value 0) is reported iff `expected ≠ 0`, and with
`expected = 0`, well-formed filter entries and successfully decoding handles
the call reports no error at all — there is no dedicated no-match
diagnostic. -/
theorem AssertEquals_no_match (expected : ℚ) (hs : List Handle)
    (labels : List Str)
    (hnm : ∀ m ∈ (CollectMetrics hs).2, («matches» m labels).2 = false) :
    (filterMetrics labels (CollectMetrics hs).2).2 = [] ∧
    (AssertEquals expected hs labels).2 = Outcome.completed ∧
    (Event.valueMismatchError labels expected 0
        ∈ (AssertEquals expected hs labels).1 ↔ expected ≠ 0) ∧
    (expected = 0 → (∀ e ∈ labels, ('=' : Char) ∈ e) →
      (∀ x ∈ hs, x.writeErr = none) →
      ∀ ev ∈ (AssertEquals expected hs labels).1, ev.isError = false) := by
  have hempty : (filterMetrics labels (CollectMetrics hs).2).2 = [] := by
    rw [filterMetrics_metrics]
    exact List.filter_eq_nil_iff.mpr fun m hm => by simp [hnm m hm]
  have hsum : sumCounterGauge 0 (filterMetrics labels (CollectMetrics hs).2).2
      = Except.ok 0 := by
    rw [hempty]
    rfl
  refine ⟨hempty, ?_, ?_, ?_⟩ <;> simp only [AssertEquals, hsum]
  · by_cases hz : expected = 0
    · rw [if_neg (fun hk => hk hz)]
    · rw [if_pos hz]
  · by_cases hz : expected = 0
    · rw [if_neg (fun hk => hk hz)]
      exact iff_of_false valueMismatch_not_in_pipeline (fun hk => hk hz)
    · rw [if_pos hz]
      refine iff_of_true ?_ hz
      simp
  · intro hz hF hdec ev hev
    rw [if_neg (fun hk => hk hz)] at hev
    rcases List.mem_append.mp hev with hev | hev
    · rw [CollectMetrics_events_nil hdec] at hev
      simp at hev
    · obtain ⟨m, hm⟩ := mem_filterMetrics_events hev
      exact matches_events_wf hF ev hm

/-- Witness for C10: nothing matches `code=200`, `expected = 0`, the call
completes with no error reported. -/
theorem AssertEquals_no_match_witness :
    (filterMetrics [strC200] (CollectMetrics [hGET3]).2).2 = [] ∧
    (AssertEquals 0 [hGET3] [strC200]).2 = Outcome.completed ∧
    (Event.valueMismatchError [strC200] 0 0
        ∈ (AssertEquals 0 [hGET3] [strC200]).1 ↔ (0 : ℚ) ≠ 0) ∧
    (∀ ev ∈ (AssertEquals 0 [hGET3] [strC200]).1, ev.isError = false) := by
  have h := AssertEquals_no_match 0 [hGET3] [strC200] (by decide)
  exact ⟨h.1, h.2.1, h.2.2.1, h.2.2.2 rfl (by decide) (by decide)⟩

end Promtest
